import Mathlib

/-!
Verification of the metagrafo real-time transcription pipeline.

This file shallowly embeds the session-registry, progress-reporting and
audio-pipeline code of the repository and proves (or refutes) the frozen
claims about it.  The embedded sources are:

* `src/backend/websocket_manager.py` — `WebSocketManager` (connection
  registry, heartbeat, stale-connection sweep) and `TqdmProgressWrapper`
  (progress percentage adaptation and final events);
* `src/transcribe_enhanced.py` — `RealTimeTranscriber` (capture callback
  queue and the transcription worker loop with overlap retention);
* `src/whisperer.py` — `MacWhisperTranscriber.audio_callback` (the bounded
  circular audio buffer).

Python floats and timestamps are modelled by rationals and natural-number
seconds; machine-level float rounding is not modelled.  Coroutines are
modelled as state-transforming functions; an operation that would block
forever on the manager's non-reentrant `asyncio.Lock` is modelled as
returning `none`.
-/

namespace Metagrafo

/-! ### WebSocketManager: data model

`WebSocketManager.__init__` fixes `ping_interval = 30`, `pong_timeout = 15`,
`cleanup_interval = 60` (seconds). -/

def pingInterval : Nat := 30

def pongTimeout : Nat := 15

def cleanupInterval : Nat := 60

/-- One entry of `active_connections`: the dict
`websocket / last_pong / ping_task` stored per client.  The transport and
the task handle are identified by numbers; `lastPong` is a timestamp in
seconds. -/
structure Conn where
  socket : Nat
  lastPong : Nat
  pingTask : Nat
  deriving DecidableEq, Repr

/-- Python dict lookup `d[k]` / `k in d`, on an association list. -/
def dictLookup (k : String) (l : List (String × Conn)) : Option Conn :=
  (l.find? (fun p => p.1 == k)).map Prod.snd

/-- Python `del d[k]`: every binding of `k` is removed. -/
def dictRemove (k : String) (l : List (String × Conn)) : List (String × Conn) :=
  l.filter (fun p => p.1 != k)

/-- Python dict assignment `d[k] = v`: replace the binding in place when the
key is present, otherwise append it. -/
def dictInsert (k : String) (v : Conn) :
    List (String × Conn) → List (String × Conn)
  | [] => [(k, v)]
  | p :: l => if p.1 == k then (k, v) :: l else p :: dictInsert k v l

/-- State of a `WebSocketManager` instance.  `closedSockets` records every
transport on which `close()` was called, `cancelledTasks` every ping task
that was cancelled, `warnings` counts warning-level log records emitted for
operations on absent clients.  `locked` is the non-reentrant
`asyncio.Lock`; `nextTask` supplies fresh ping-task handles.  The global
cleanup task of `start_ping_checker` is modelled by `sweepOnce` below. -/
structure WSManager where
  activeConnections : List (String × Conn)
  closedSockets : List Nat
  cancelledTasks : List Nat
  warnings : Nat
  locked : Bool
  nextTask : Nat
  deriving DecidableEq, Repr

/-- A manager with no connections, as built by `WebSocketManager.__init__`. -/
def wsEmpty : WSManager := ⟨[], [], [], 0, false, 0⟩

/-! ### WebSocketManager: operations -/

/-- Model of `WebSocketManager.connect` (lines 40-68): briefly takes the lock to
accept the transport, then creates a ping task and assigns
`active_connections[client_id]` — overwriting any existing entry without
closing its transport or cancelling its ping task.  Called with the lock
already held it would block forever (`none`). -/
def connectOp (m : WSManager) (socket : Nat) (clientId : String) (now : Nat) :
    Option WSManager :=
  if m.locked then none
  else some
    { m with
      activeConnections :=
        dictInsert clientId ⟨socket, now, m.nextTask⟩ m.activeConnections,
      nextTask := m.nextTask + 1 }

/-- Body of `WebSocketManager.disconnect` (lines 77-96), run while holding
the lock: if the client is registered, cancel its ping task, close its
transport (errors during close are swallowed) and delete the entry;
otherwise only log a warning. -/
def disconnectBody (m : WSManager) (clientId : String) : WSManager :=
  match dictLookup clientId m.activeConnections with
  | some conn =>
      { m with
        cancelledTasks := conn.pingTask :: m.cancelledTasks,
        closedSockets := conn.socket :: m.closedSockets,
        activeConnections := dictRemove clientId m.activeConnections }
  | none => { m with warnings := m.warnings + 1 }

/-- Model of `WebSocketManager.disconnect` (lines 70-96): acquires the non-reentrant
lock, runs `disconnectBody`, releases the lock.  If the caller already
holds the lock the acquisition never completes (`none`). -/
def disconnect (m : WSManager) (clientId : String) : Option WSManager :=
  if m.locked then none else some (disconnectBody m clientId)

/-- Shared body of `send_message` / `send_progress` / `send_error`
(lines 98-202), which are structurally identical: each acquires the lock,
warns and returns when the client is absent, sends otherwise, and in the
exception handler — still inside the `async with self.lock` block — awaits
`self.disconnect(client_id)`, which tries to re-acquire the same
non-reentrant lock and therefore never completes (`none`).  `sendOk` is
whether the transport send raises. -/
def sendEventOp (m : WSManager) (clientId : String) (sendOk : Bool) :
    Option WSManager :=
  if m.locked then none
  else
    match dictLookup clientId m.activeConnections with
    | none => some { m with warnings := m.warnings + 1 }
    | some _ =>
        if sendOk then some m
        else disconnect { m with locked := true } clientId

/-- Model of `WebSocketManager.send_message` (lines 98-131). -/
def sendMessage (m : WSManager) (clientId : String) (sendOk : Bool) :
    Option WSManager :=
  sendEventOp m clientId sendOk

/-- Model of `WebSocketManager.send_progress` (lines 133-168). -/
def sendProgress (m : WSManager) (clientId : String) (sendOk : Bool) :
    Option WSManager :=
  sendEventOp m clientId sendOk

/-- Model of `WebSocketManager.send_error` (lines 170-202). -/
def sendError (m : WSManager) (clientId : String) (sendOk : Bool) :
    Option WSManager :=
  sendEventOp m clientId sendOk

/-- Model of `WebSocketManager._send_ping` (lines 254-265): iterates over all of
`active_connections` and attempts to send a ping JSON message (type
"ping" plus timestamp) to each; a failed send only logs a warning and the
iteration continues, so every registered client receives a send attempt.
The result is the list of client ids pinged. -/
def sendPingAll (m : WSManager) : List String :=
  m.activeConnections.map Prod.fst

/-- Outcome of one iteration of a per-session ping task. -/
inductive TickResult where
  | stopped
  | evicted (m : WSManager)
  | pinged (m : WSManager) (pings : List String)
  deriving DecidableEq, Repr

/-- One iteration of `WebSocketManager._send_pings` (lines 212-252) for the
session `clientId`, taken at time `now`: stop if the client is gone; if no
pong arrived for more than `ping_interval + pong_timeout` seconds,
disconnect it (the lock is free here) and stop; otherwise broadcast pings
via `_send_ping`. -/
def pingTick (m : WSManager) (clientId : String) (now : Nat) :
    Option TickResult :=
  match dictLookup clientId m.activeConnections with
  | none => some .stopped
  | some conn =>
      if pingInterval + pongTimeout < now - conn.lastPong then
        (disconnect m clientId).map .evicted
      else
        some (.pinged m (sendPingAll m))

/-- Model of `WebSocketManager.handle_message` for the literal message "pong"
(lines 283-288): refresh the session's `last_pong` timestamp. -/
def handlePong (m : WSManager) (clientId : String) (now : Nat) : WSManager :=
  match dictLookup clientId m.activeConnections with
  | some conn =>
      { m with
        activeConnections :=
          dictInsert clientId { conn with lastPong := now } m.activeConnections }
  | none => { m with warnings := m.warnings + 1 }

/-- Body of one sweep of `WebSocketManager.start_ping_checker`
(lines 302-327): collect every client whose `last_pong` is older than
`ping_interval * 2 + pong_timeout` seconds, then disconnect each. -/
def sweepBody (m : WSManager) (now : Nat) : WSManager :=
  ((m.activeConnections.filter
      (fun p => pingInterval * 2 + pongTimeout < now - p.2.lastPong)).map
    Prod.fst).foldl disconnectBody m

/-- One cleanup sweep; each `disconnect` inside it needs the lock free. -/
def sweepOnce (m : WSManager) (now : Nat) : Option WSManager :=
  if m.locked then none else some (sweepBody m now)

/-! ### Dictionary and registry lemmas -/

theorem dictLookup_cons (k : String) (p : String × Conn)
    (l : List (String × Conn)) :
    dictLookup k (p :: l) = if p.1 == k then some p.2 else dictLookup k l := by
  simp only [dictLookup, List.find?_cons]
  cases hpk : (p.1 == k) <;> simp

theorem dictRemove_cons (k : String) (p : String × Conn)
    (l : List (String × Conn)) :
    dictRemove k (p :: l) =
      if p.1 == k then dictRemove k l else p :: dictRemove k l := by
  simp only [dictRemove, List.filter_cons, bne]
  cases hpk : (p.1 == k) <;> simp [hpk]

theorem dictLookup_dictRemove_self (k : String) (l : List (String × Conn)) :
    dictLookup k (dictRemove k l) = none := by
  induction l with
  | nil => rfl
  | cons p l ih =>
      rw [dictRemove_cons]
      cases hpk : (p.1 == k)
      · simp [hpk, dictLookup_cons, ih]
      · simp [hpk, ih]

theorem dictLookup_dictRemove_ne (k k' : String) (l : List (String × Conn))
    (h : k ≠ k') : dictLookup k (dictRemove k' l) = dictLookup k l := by
  induction l with
  | nil => rfl
  | cons p l ih =>
      rw [dictRemove_cons, dictLookup_cons]
      cases hpk : (p.1 == k')
      · simp [hpk, dictLookup_cons, ih]
      · have hp : p.1 = k' := by simpa using hpk
        have hk : (p.1 == k) = false := by
          simp [hp]
          exact fun e => h e.symm
        simp [hpk, hk, ih]

theorem dictLookup_dictInsert_self (k : String) (v : Conn)
    (l : List (String × Conn)) : dictLookup k (dictInsert k v l) = some v := by
  induction l with
  | nil => simp [dictInsert, dictLookup_cons]
  | cons p l ih =>
      cases hpk : (p.1 == k)
      · simpa [dictInsert, hpk, dictLookup_cons] using ih
      · simp [dictInsert, hpk, dictLookup_cons]

theorem keys_dictInsert (k : String) (v : Conn) (l : List (String × Conn)) :
    (dictInsert k v l).map Prod.fst =
      if k ∈ l.map Prod.fst then l.map Prod.fst else l.map Prod.fst ++ [k] := by
  induction l with
  | nil => simp [dictInsert]
  | cons p l ih =>
      cases hpk : (p.1 == k)
      · have hp : p.1 ≠ k := by simpa using hpk
        by_cases hmem : k ∈ l.map Prod.fst
        · simp [dictInsert, hpk, hmem, ih, Ne.symm hp]
        · simp [dictInsert, hpk, hmem, ih, Ne.symm hp]
      · have hp : p.1 = k := by simpa using hpk
        simp [dictInsert, hpk, hp]

theorem dictLookup_mem {k : String} {c : Conn} {l : List (String × Conn)}
    (h : dictLookup k l = some c) : (k, c) ∈ l := by
  unfold dictLookup at h
  cases hf : l.find? (fun p => p.1 == k) with
  | none => rw [hf] at h; cases h
  | some q =>
      rw [hf] at h
      have hq := List.mem_of_find?_eq_some hf
      have hk := List.find?_some hf
      obtain ⟨q1, q2⟩ := q
      simp at hk h
      subst hk; subst h
      exact hq

theorem locked_disconnectBody (m : WSManager) (cid : String) :
    (disconnectBody m cid).locked = m.locked := by
  unfold disconnectBody
  cases dictLookup cid m.activeConnections <;> rfl

theorem dictLookup_disconnectBody_self (m : WSManager) (cid : String) :
    dictLookup cid (disconnectBody m cid).activeConnections = none := by
  unfold disconnectBody
  cases h : dictLookup cid m.activeConnections with
  | none => simpa using h
  | some conn => simpa using dictLookup_dictRemove_self cid m.activeConnections

theorem dictLookup_disconnectBody_none (m : WSManager) (cid c2 : String)
    (h : dictLookup cid m.activeConnections = none) :
    dictLookup cid (disconnectBody m c2).activeConnections = none := by
  unfold disconnectBody
  cases h2 : dictLookup c2 m.activeConnections with
  | none => simpa using h
  | some conn =>
      by_cases hc : cid = c2
      · subst hc; simpa using dictLookup_dictRemove_self cid m.activeConnections
      · simpa [dictLookup_dictRemove_ne cid c2 _ hc] using h

theorem dictLookup_foldl_disconnectBody_none (l : List String) (m : WSManager)
    (cid : String) (h : dictLookup cid m.activeConnections = none) :
    dictLookup cid ((l.foldl disconnectBody m).activeConnections) = none := by
  induction l generalizing m with
  | nil => simpa using h
  | cons a l ih =>
      exact ih (disconnectBody m a) (dictLookup_disconnectBody_none m cid a h)

theorem dictLookup_foldl_disconnectBody_mem (l : List String) (m : WSManager)
    (cid : String) (h : cid ∈ l) :
    dictLookup cid ((l.foldl disconnectBody m).activeConnections) = none := by
  induction l generalizing m with
  | nil => cases h
  | cons a l ih =>
      rcases List.mem_cons.mp h with rfl | hmem
      · exact dictLookup_foldl_disconnectBody_none l (disconnectBody m cid) cid
          (dictLookup_disconnectBody_self m cid)
      · exact ih (disconnectBody m a) hmem

/-! ### Concrete registry states used as test inputs -/

/-- The registry after `connect(socket 0, "c1")` at time 0. -/
def wsOne : WSManager := ⟨[("c1", ⟨0, 0, 0⟩)], [], [], 0, false, 1⟩

/-- The registry after connecting "c1" (socket 0, time 0) and "c2"
(socket 1, time 5). -/
def wsTwo : WSManager :=
  ⟨[("c1", ⟨0, 0, 0⟩), ("c2", ⟨1, 5, 1⟩)], [], [], 0, false, 2⟩

/-- The registry after a second `connect` for "c1" (socket 1, time 5) on
top of `wsOne`. -/
def wsDup : WSManager := ⟨[("c1", ⟨1, 5, 1⟩)], [], [], 0, false, 2⟩

/-! ### Claims about the session registry -/

/-- C1: a session whose last liveness ack is more than
`pingInterval + pongTimeout` seconds old is evicted from the registry by
its next heartbeat tick; a session more than `2*pingInterval + pongTimeout`
seconds stale is evicted by the next cleanup sweep (the sweep's own
staleness threshold, as the claim states).  Whichever of these events runs
first removes the session. -/
theorem C1_stale_session_evicted (m : WSManager) (cid : String) (conn : Conn)
    (now : Nat) (hlock : m.locked = false)
    (hconn : dictLookup cid m.activeConnections = some conn) :
    (pingInterval + pongTimeout < now - conn.lastPong →
      pingTick m cid now = some (.evicted (disconnectBody m cid)) ∧
      dictLookup cid (disconnectBody m cid).activeConnections = none) ∧
    (pingInterval * 2 + pongTimeout < now - conn.lastPong →
      sweepOnce m now = some (sweepBody m now) ∧
      dictLookup cid (sweepBody m now).activeConnections = none) := by
  constructor
  · intro h
    refine ⟨?_, dictLookup_disconnectBody_self m cid⟩
    simp [pingTick, hconn, h, disconnect, hlock]
  · intro h
    refine ⟨by simp [sweepOnce, hlock], ?_⟩
    apply dictLookup_foldl_disconnectBody_mem
    have hm : (cid, conn) ∈ m.activeConnections := dictLookup_mem hconn
    have hf : (cid, conn) ∈ m.activeConnections.filter
        (fun p => pingInterval * 2 + pongTimeout < now - p.2.lastPong) := by
      rw [List.mem_filter]
      exact ⟨hm, by simpa using h⟩
    exact List.mem_map_of_mem Prod.fst hf

/-- Witness for C1: the single session "c1" (last ack at time 0) is evicted
both by a heartbeat tick at time 100 and by a cleanup sweep at time 100. -/
theorem C1_stale_session_evicted_witness :
    pingTick wsOne "c1" 100 = some (.evicted (disconnectBody wsOne "c1")) ∧
    dictLookup "c1" (sweepBody wsOne 100).activeConnections = none := by
  have h := C1_stale_session_evicted wsOne "c1" ⟨0, 0, 0⟩ 100 rfl (by decide)
  exact ⟨(h.1 (by decide)).1, (h.2 (by decide)).2⟩

/-- C2 (code bug): with sessions "c1" and "c2" registered, a failing send
to "c1" never completes.  Each `send_*` method holds the manager's
non-reentrant `asyncio.Lock` when its exception handler awaits
`disconnect`, which tries to acquire the same lock again, so the coroutine
blocks forever (`none`): the session is never removed, its transport never
closed, and — the lock being stuck — every other session's operations
stall too, contradicting both the claim and the code's own comment
("Disconnect client on send error"). -/
theorem C2_send_failure_deadlocks :
    dictLookup "c1" wsTwo.activeConnections = some ⟨0, 0, 0⟩ ∧
    sendMessage wsTwo "c1" false = none ∧
    sendProgress wsTwo "c1" false = none ∧
    sendError wsTwo "c1" false = none := by
  decide

/-- C6 counterexample: connecting "c1" twice (socket 0 then socket 1)
leaves the registry mapping "c1" to the new transport while the previous
transport (socket 0) was never closed and its ping task (task 0) never
cancelled — both transports stay live. -/
theorem C6_counterexample :
    connectOp wsEmpty 0 "c1" 0 = some wsOne ∧
    connectOp wsOne 1 "c1" 5 = some wsDup ∧
    dictLookup "c1" wsDup.activeConnections = some ⟨1, 5, 1⟩ ∧
    0 ∉ wsDup.closedSockets ∧
    0 ∉ wsDup.cancelledTasks := by
  decide

/-- C6 amended: the registry itself maps each id to at most one entry —
`connect` on an already-registered id overwrites the entry in place and
preserves distinctness of the registered ids — but it closes nothing: the
set of closed transports and cancelled ping tasks is unchanged, so the
previous transport of that id is left live alongside the new one. -/
theorem C6_registry_overwrite (m : WSManager) (sock : Nat) (cid : String)
    (now : Nat) (conn : Conn) (m' : WSManager)
    (hlock : m.locked = false)
    (hprev : dictLookup cid m.activeConnections = some conn)
    (hconn : connectOp m sock cid now = some m') :
    dictLookup cid m'.activeConnections = some ⟨sock, now, m.nextTask⟩ ∧
    m'.closedSockets = m.closedSockets ∧
    m'.cancelledTasks = m.cancelledTasks ∧
    ((m.activeConnections.map Prod.fst).Nodup →
      (m'.activeConnections.map Prod.fst).Nodup) := by
  simp only [connectOp, hlock, Bool.false_eq_true, if_false,
    Option.some.injEq] at hconn
  subst hconn
  refine ⟨dictLookup_dictInsert_self cid _ m.activeConnections, rfl, rfl, ?_⟩
  intro hnd
  rw [keys_dictInsert]
  have hmem : cid ∈ m.activeConnections.map Prod.fst := by
    exact List.mem_map_of_mem Prod.fst (dictLookup_mem hprev)
  simpa [hmem] using hnd

/-- Witness for C6 amended: instantiated at the duplicate connect of "c1". -/
theorem C6_registry_overwrite_witness :
    dictLookup "c1" wsDup.activeConnections = some ⟨1, 5, 1⟩ ∧
    wsDup.closedSockets = wsOne.closedSockets ∧
    wsDup.cancelledTasks = wsOne.cancelledTasks ∧
    ((wsOne.activeConnections.map Prod.fst).Nodup →
      (wsDup.activeConnections.map Prod.fst).Nodup) := by
  exact C6_registry_overwrite wsOne 1 "c1" 5 ⟨0, 0, 0⟩ wsDup rfl (by decide)
    (by decide)

/-- C7: `disconnect` is idempotent.  Starting from any registry with the
lock free, a first `disconnect` completes, and a second `disconnect` of the
same id completes as a pure no-op — the session table, closed transports
and cancelled tasks are untouched and its only effect is one more
warning-level log record (never an error). -/
theorem C7_disconnect_idempotent (m : WSManager) (cid : String)
    (hlock : m.locked = false) :
    ∃ m₁ m₂, disconnect m cid = some m₁ ∧ disconnect m₁ cid = some m₂ ∧
      m₂.activeConnections = m₁.activeConnections ∧
      m₂.activeConnections.length = m₁.activeConnections.length ∧
      m₂.closedSockets = m₁.closedSockets ∧
      m₂.cancelledTasks = m₁.cancelledTasks ∧
      m₂.warnings = m₁.warnings + 1 := by
  refine ⟨disconnectBody m cid,
    { disconnectBody m cid with warnings := (disconnectBody m cid).warnings + 1 },
    by simp [disconnect, hlock], ?_, rfl, rfl, rfl, rfl, rfl⟩
  have h1 : (disconnectBody m cid).locked = false := by
    rw [locked_disconnectBody]; exact hlock
  have h2 := dictLookup_disconnectBody_self m cid
  have key : ∀ x : WSManager, x.locked = false →
      dictLookup cid x.activeConnections = none →
      disconnect x cid = some { x with warnings := x.warnings + 1 } := by
    intro x hxl hxn
    simp [disconnect, hxl, disconnectBody, hxn]
  exact key _ h1 h2

/-- Witness for C7: double disconnect of "c1" on the concrete registry. -/
theorem C7_disconnect_idempotent_witness :
    ∃ m₁ m₂, disconnect wsOne "c1" = some m₁ ∧ disconnect m₁ "c1" = some m₂ ∧
      m₂.activeConnections = m₁.activeConnections ∧
      m₂.activeConnections.length = m₁.activeConnections.length ∧
      m₂.closedSockets = m₁.closedSockets ∧
      m₂.cancelledTasks = m₁.cancelledTasks ∧
      m₂.warnings = m₁.warnings + 1 :=
  C7_disconnect_idempotent wsOne "c1" rfl

/-- C10: when the heartbeat tick of session `cid` finds its own session
fresh (not stale), it broadcasts a ping JSON message to every client id in
the registry — `_send_ping` iterates over all of `active_connections`, not
just the task's own session. -/
theorem C10_tick_broadcasts_all (m : WSManager) (cid : String) (conn : Conn)
    (now : Nat)
    (hconn : dictLookup cid m.activeConnections = some conn)
    (hfresh : now - conn.lastPong ≤ pingInterval + pongTimeout) :
    pingTick m cid now = some (.pinged m (m.activeConnections.map Prod.fst)) := by
  simp [pingTick, hconn, Nat.not_lt.mpr hfresh, sendPingAll]

/-- Witness for C10: the tick of "c1" at time 10 pings both "c1" and "c2". -/
theorem C10_tick_broadcasts_all_witness :
    pingTick wsTwo "c1" 10 = some (.pinged wsTwo ["c1", "c2"]) := by
  have h := C10_tick_broadcasts_all wsTwo "c1" ⟨0, 0, 0⟩ 10 (by decide) (by decide)
  simpa using h

/-! ### TqdmProgressWrapper

Embedding of `TqdmProgressWrapper` (websocket_manager.py lines 339-413).
Python floats are modelled by rationals. -/

/-- Python truthiness of `self.total : Optional[int]` in `if self.total:` —
false for `None` and for `0`. -/
def totalTruthy : Option Int → Bool
  | some t => t != 0
  | none => false

/-- The progress value computed by `TqdmProgressWrapper.update`
(lines 358-369) for a given step counter `current`:
`min(100, current/total*100)` when `total` is truthy, else `0`, then
clamped into `[0, 100]`. -/
def tqdmProgress (total : Option Int) (current : Int) : ℚ :=
  let progress : ℚ :=
    if totalTruthy total then
      min 100 ((current : ℚ) / ((total.getD 0 : Int) : ℚ) * 100)
    else 0
  max 0 (min 100 progress)

/-- Model of `TqdmProgressWrapper.update(n)`: advance the step counter by `n` and
report the progress value sent over the session (when a loop is
available). -/
def tqdmUpdate (total : Option Int) (current n : Int) : Int × ℚ :=
  (current + n, tqdmProgress total (current + n))

/-- The clamp the specification asks for. -/
def clampSpec (x : ℚ) : ℚ := max 0 (min 100 x)

/-- C8: every progress update reports
`clamp(current/total * 100, 0, 100)` when the total is known, and the
indeterminate value `0` when the total is unknown.  (For `total = 0` the
code's truthiness test reports `0`, which agrees with the claim's formula
under the rational convention `x / 0 = 0`.) -/
theorem C8_progress_clamped (total current n : Int) :
    (tqdmUpdate (some total) current n).2 =
      clampSpec (((current + n : Int) : ℚ) / (total : ℚ) * 100) ∧
    (tqdmUpdate none current n).2 = 0 := by
  constructor
  · by_cases h : total = 0
    · subst h
      simp [tqdmUpdate, tqdmProgress, totalTruthy, clampSpec]
    · have ht : totalTruthy (some total) = true := by simp [totalTruthy, h]
      simp only [tqdmUpdate, tqdmProgress, ht, if_true, clampSpec,
        Option.getD]
      rw [← min_assoc, min_self]
  · simp [tqdmUpdate, tqdmProgress, totalTruthy, clampSpec]

/-- A final event sent by `TqdmProgressWrapper.__exit__`. -/
inductive ExitEvent where
  | completed (progress : ℚ)
  | errorStatus (progress : ℚ)
  deriving DecidableEq, Repr

/-- Model of `TqdmProgressWrapper.__exit__` (lines 386-413): on a clean exit with a
truthy `total`, send progress 100 with status "Completed"; on an
exceptional exit, send `self.current` — the raw step counter — with an
error status; on a clean exit without `total`, only log (no event).
Events are sent only when an event loop is available. -/
def tqdmExit (total : Option Int) (current : Int) (failed : Bool)
    (loopPresent : Bool) : List ExitEvent :=
  if !failed && totalTruthy total then
    if loopPresent then [.completed 100] else []
  else if failed then
    if loopPresent then [.errorStatus (current : ℚ)] else []
  else []

/-- C9 counterexample: a successful job with unknown total emits no final
event at all (neither of the two), and a failed job's error event carries
the raw step counter 50 although the last known percentage was 25 — the
claim's "exactly one of the two" and "carrying the last known percentage"
both fail on the code. -/
theorem C9_counterexample :
    tqdmExit none 5 false true = [] ∧
    tqdmExit (some 200) 50 true true = [.errorStatus 50] ∧
    tqdmProgress (some 200) 50 = 25 ∧ (50 : ℚ) ≠ 25 := by
  refine ⟨rfl, rfl, ?_, by norm_num⟩
  simp only [tqdmProgress, totalTruthy]
  norm_num

/-- C9 amended: per job (with an event loop), at most one final event is
emitted; a failed job emits exactly one error-status event carrying the
raw step counter (not the last percentage); a successful job emits exactly
one 100% event when the total is known truthy and no final event
otherwise. -/
theorem C9_exit_events (total : Option Int) (current : Int) (failed : Bool) :
    (tqdmExit total current failed true).length ≤ 1 ∧
    tqdmExit total current true true = [.errorStatus (current : ℚ)] ∧
    tqdmExit total current false true =
      (if totalTruthy total then [ExitEvent.completed 100] else []) := by
  cases htt : totalTruthy total <;> cases failed <;>
    simp [tqdmExit, htt]

/-! ### RealTimeTranscriber (src/transcribe_enhanced.py)

Audio samples are modelled as rationals (numpy float32 in the source).
Config defaults: `sample_rate = 16000`, `chunk_duration_sec = 1.0`. -/

def sampleRate : Nat := 16000

def chunkDurationSec : Nat := 1

/-- Value of `int(0.2 * self.sample_rate)` — 200 ms of overlap, 3200 samples. -/
def overlapSamples : Nat := 3200

/-- The force-flush size `1.5 * sample_rate * chunk_duration_sec` from
`_transcription_worker`: a buffer of at least this many samples is
processed regardless of speech detection. -/
def flushThreshold : Nat := 3 * sampleRate * chunkDurationSec / 2

/-- Sum of squared samples (`np.mean(audio**2)` numerator). -/
def sumSq (l : List ℚ) : ℚ := (l.map (fun x => x * x)).sum

/-- Value of `np.abs(audio).max()` (0 on the empty list). -/
def maxAbs (l : List ℚ) : ℚ := l.foldr (fun x m => max |x| m) 0

/-- Model of `RealTimeTranscriber._is_speech` (lines 184-189):
`sqrt(mean(audio^2)) > max(0.01, 0.02 * np.abs(audio).max())`.  Both sides
of the comparison are nonnegative, so it is stated equivalently on their
squares, which keeps the definition inside ℚ. -/
def isSpeech (audio : List ℚ) : Bool :=
  decide ((max (1 / 100) (1 / 50 * maxAbs audio)) ^ 2 <
    sumSq audio / (audio.length : ℚ))

/-- Python `x[-n:]`: the last `n` elements (all of `x` when `n` exceeds its
length). -/
def lastTail (n : Nat) (x : List ℚ) : List ℚ := x.drop (x.length - n)

/-- The reassignment of `chunks` at a flush (lines 210-214): when more
than one chunk accumulated, keep only the last 200 ms of the *last chunk*
(`chunks[-1][-overlap_samples:]`); otherwise keep nothing. -/
def retainAfterFlush (chunks : List (List ℚ)) : List (List ℚ) :=
  if 1 < chunks.length then [lastTail overlapSamples (chunks.getLast?.getD [])]
  else []

/-- Result of running `_transcription_worker` over a finite queue of
frames: the texts produced (in order), whether the worker thread died from
an uncaught engine exception, the queue frames never consumed, and the
final accumulation buffer. -/
structure WorkerOutcome where
  texts : List String
  crashed : Bool
  unconsumed : List (List ℚ)
  chunks : List (List ℚ)
  deriving DecidableEq, Repr

/-- Model of `RealTimeTranscriber._transcription_worker` (lines 191-245) over a
finite frame queue.  Per iteration: pop a frame (the `IndexError` of an
empty queue is the only caught exception), append it to `chunks`,
concatenate, and if speech is detected or the buffer reached
`flushThreshold` samples, reassign `chunks` to the retained overlap and
invoke the engine.  An engine exception propagates out of the `while`
loop and kills the worker thread: nothing else of the queue is
processed. -/
def workerRun (engine : List ℚ → Except Unit String) :
    List (List ℚ) → List (List ℚ) → WorkerOutcome
  | [], chunks => ⟨[], false, [], chunks⟩
  | frame :: rest, chunks =>
      let chunksA := chunks ++ [frame]
      let buffer := chunksA.flatten
      if isSpeech buffer || decide (flushThreshold ≤ buffer.length) then
        match engine buffer with
        | .error _ => ⟨[], true, rest, retainAfterFlush chunksA⟩
        | .ok text =>
            let r := workerRun engine rest (retainAfterFlush chunksA)
            ⟨text :: r.texts, r.crashed, r.unconsumed, r.chunks⟩
      else
        workerRun engine rest chunksA

/-- An engine that always raises. -/
def failEngine : List ℚ → Except Unit String := fun _ => .error ()

/-- An engine that always transcribes successfully. -/
def okEngine : List ℚ → Except Unit String := fun _ => .ok "ok"

/-- A single frame holding 1.5 s of audio — enough to force-flush on its
own. -/
def bigFrame : List ℚ := List.replicate flushThreshold 1

theorem flushCond_true (buffer : List ℚ)
    (h : flushThreshold ≤ buffer.length) :
    (isSpeech buffer || decide (flushThreshold ≤ buffer.length)) = true := by
  simp [decide_eq_true h]

theorem workerRun_flush_step (engine : List ℚ → Except Unit String)
    (chunks : List (List ℚ)) (frame : List ℚ) (rest : List (List ℚ))
    (hc : (isSpeech ((chunks ++ [frame]).flatten) ||
      decide (flushThreshold ≤ ((chunks ++ [frame]).flatten).length)) = true) :
    workerRun engine (frame :: rest) chunks =
      match engine ((chunks ++ [frame]).flatten) with
      | .error _ => ⟨[], true, rest, retainAfterFlush (chunks ++ [frame])⟩
      | .ok text =>
          let r := workerRun engine rest (retainAfterFlush (chunks ++ [frame]))
          ⟨text :: r.texts, r.crashed, r.unconsumed, r.chunks⟩ := by
  simp only [workerRun, hc, if_true]

theorem bigFrame_flush (chunks : List (List ℚ)) :
    flushThreshold ≤ ((chunks ++ [bigFrame]).flatten).length := by
  simp [bigFrame, List.flatten_append]

/-- C4 counterexample: a queue of two force-flush frames.  With a working
engine both segments are transcribed; when the engine raises on the first
segment, the worker produces no text, no error event, dies, and the second
frame is never consumed — the claim that the next segment still yields a
normal result fails on the code. -/
theorem C4_counterexample :
    workerRun failEngine [bigFrame, bigFrame] [] = ⟨[], true, [bigFrame], []⟩ ∧
    workerRun okEngine [bigFrame, bigFrame] [] = ⟨["ok", "ok"], false, [], []⟩ := by
  have hr : retainAfterFlush [bigFrame] = [] := by
    simp [retainAfterFlush]
  constructor
  · rw [workerRun_flush_step failEngine [] bigFrame [bigFrame]
      (flushCond_true _ (bigFrame_flush []))]
    simp [failEngine, hr]
  · rw [workerRun_flush_step okEngine [] bigFrame [bigFrame]
      (flushCond_true _ (bigFrame_flush []))]
    simp only [okEngine, List.nil_append, hr]
    rw [workerRun_flush_step okEngine [] bigFrame []
      (flushCond_true _ (bigFrame_flush []))]
    simp [okEngine, hr, workerRun]

/-- C4 amended: only the `IndexError` of an empty queue is caught in
`_transcription_worker`, so when the engine raises on a flushed segment
the worker loop terminates at once: no text is produced, no error event is
emitted, and every remaining frame of the queue — including the next
segment — is left unprocessed. -/
theorem C4_engine_failure_stalls (engine : List ℚ → Except Unit String)
    (chunks : List (List ℚ)) (frame : List ℚ) (rest : List (List ℚ))
    (hflush : flushThreshold ≤ ((chunks ++ [frame]).flatten).length)
    (hfail : engine ((chunks ++ [frame]).flatten) = .error ()) :
    workerRun engine (frame :: rest) chunks =
      ⟨[], true, rest, retainAfterFlush (chunks ++ [frame])⟩ := by
  rw [workerRun_flush_step engine chunks frame rest (flushCond_true _ hflush),
    hfail]

/-- Witness for C4 amended, at the concrete failing queue. -/
theorem C4_engine_failure_stalls_witness :
    workerRun failEngine [bigFrame, bigFrame] [] =
      ⟨[], true, [bigFrame], retainAfterFlush ([] ++ [bigFrame])⟩ :=
  C4_engine_failure_stalls failEngine [] bigFrame [bigFrame]
    (bigFrame_flush []) rfl

theorem lastTail_append (n : Nat) (xs ys : List ℚ) (h : n ≤ ys.length) :
    lastTail n (xs ++ ys) = lastTail n ys := by
  unfold lastTail
  rw [List.length_append]
  have he : xs.length + ys.length - n = xs.length + (ys.length - n) := by omega
  rw [he, List.drop_append]

theorem retainAfterFlush_concat (chunks : List (List ℚ)) (frame : List ℚ)
    (hne : chunks ≠ []) (hlen : overlapSamples ≤ frame.length) :
    retainAfterFlush (chunks ++ [frame]) =
      [lastTail overlapSamples ((chunks ++ [frame]).flatten)] := by
  unfold retainAfterFlush
  have hlen1 : 1 < (chunks ++ [frame]).length := by
    rw [List.length_append]
    have : chunks.length ≠ 0 := fun h0 => hne (List.length_eq_zero.mp h0)
    simp; omega
  rw [if_pos hlen1]
  have hgl : (chunks ++ [frame]).getLast?.getD [] = frame := by
    rw [List.getLast?_concat]
    rfl
  rw [hgl]
  have hjoin : (chunks ++ [frame]).flatten = chunks.flatten ++ frame := by
    rw [List.flatten_append]
    simp
  rw [hjoin, lastTail_append _ _ _ hlen]

/-- C5 counterexample: a single 1.5-second frame triggers a force-flush by
`maxSegmentDuration` with only one accumulated chunk, so the code retains
nothing (`chunks = []`) for the next segment, while the claim requires the
next segment's initial content to equal the flushed segment's 200 ms
overlap tail — which is a nonempty 3200-sample list. -/
theorem C5_counterexample :
    workerRun okEngine [bigFrame] [] = ⟨["ok"], false, [], []⟩ ∧
    lastTail overlapSamples bigFrame ≠ [] := by
  constructor
  · rw [workerRun_flush_step okEngine [] bigFrame []
      (flushCond_true _ (bigFrame_flush []))]
    simp [okEngine, retainAfterFlush, workerRun]
  · intro h
    have hlen := congrArg List.length h
    rw [lastTail, List.length_drop, List.length_nil, bigFrame,
      List.length_replicate, flushThreshold, overlapSamples, sampleRate,
      chunkDurationSec] at hlen
    omega

/-- C5 amended: after a force-flush, the next segment's initial content
equals the flushed segment's retained 200 ms overlap tail *provided* more
than one chunk had accumulated and the final frame holds at least 3200
samples; the code keeps `chunks[-1][-overlap_samples:]`, the tail of the
last frame only (and nothing at all for a single-chunk flush). -/
theorem C5_overlap_retained (engine : List ℚ → Except Unit String)
    (chunks : List (List ℚ)) (frame : List ℚ) (text : String)
    (hflush : flushThreshold ≤ ((chunks ++ [frame]).flatten).length)
    (hok : engine ((chunks ++ [frame]).flatten) = .ok text)
    (hne : chunks ≠ [])
    (hlen : overlapSamples ≤ frame.length) :
    workerRun engine [frame] chunks =
      ⟨[text], false, [],
        [lastTail overlapSamples ((chunks ++ [frame]).flatten)]⟩ := by
  rw [workerRun_flush_step engine chunks frame []
    (flushCond_true _ hflush), hok]
  simp only [workerRun]
  rw [retainAfterFlush_concat chunks frame hne hlen]

/-- A 1.3-second chunk already accumulated before the final frame. -/
def padChunk : List ℚ := List.replicate 20800 1

/-- A final frame of exactly 3200 samples (200 ms). -/
def tailFrame : List ℚ := List.replicate 3200 1

/-- Witness for C5 amended: flushing `padChunk ++ tailFrame` (24000
samples) retains exactly the overlap tail of the flushed segment. -/
theorem C5_overlap_retained_witness :
    workerRun okEngine [tailFrame] [padChunk] =
      ⟨["ok"], false, [],
        [lastTail overlapSamples (([padChunk] ++ [tailFrame]).flatten)]⟩ := by
  apply C5_overlap_retained
  · rw [show ([padChunk] ++ [tailFrame]) = [padChunk, tailFrame] from rfl,
      List.flatten_cons, List.flatten_cons, List.flatten_nil,
      List.append_nil, List.length_append, padChunk, tailFrame,
      List.length_replicate, List.length_replicate, flushThreshold,
      sampleRate, chunkDurationSec]
  · rfl
  · exact List.cons_ne_nil padChunk []
  · rw [tailFrame, List.length_replicate, overlapSamples]

/-! ### The capture-side frame queue (C3)

`RealTimeTranscriber.audio_queue` (transcribe_enhanced.py line 88) is a
plain unbounded `deque()`; `MacWhisperTranscriber.audio_buffer`
(whisperer.py line 131) is a `deque(maxlen = 16000 * 2.0)` of samples. -/

/-- Model of `RealTimeTranscriber._audio_callback` (lines 175-182): append the
copied frame to the unbounded `audio_queue`; the callback never blocks and
never drops anything. -/
def audioCallbackTE (queue : List (List ℚ)) (frame : List ℚ) :
    List (List ℚ) := queue ++ [frame]

/-- The `audio_queue` after `n` capture callbacks delivering `frame`,
starting empty. -/
def teQueueAfter (n : Nat) (frame : List ℚ) : List (List ℚ) :=
  (List.replicate n frame).foldl audioCallbackTE []

theorem audioCallbackTE_foldl (l acc : List (List ℚ)) :
    l.foldl audioCallbackTE acc = acc ++ l := by
  induction l generalizing acc with
  | nil => simp
  | cons a l ih => simp [audioCallbackTE, ih]

/-- Value of `MacWhisperTranscriber.buffer_duration` (2.0 s), giving
`buffer_size = 32000` samples — the spec's default FrameQueue capacity of
about two seconds of audio. -/
def bufferDurationSec : Nat := 2

def bufferSize : Nat := sampleRate * bufferDurationSec

/-- Python `deque(maxlen = M).extend(xs)` semantics: the deque keeps the
last `M` elements of the old content followed by `xs`, dropping the oldest
from the left. -/
def dequeExtend (maxlen : Nat) (buf xs : List ℚ) : List ℚ :=
  (buf ++ xs).drop (buf.length + xs.length - maxlen)

/-- Counters and buffer of a `MacWhisperTranscriber` touched by
`audio_callback`. -/
structure MacWhispererState where
  audio_buffer : List ℚ
  frames_processed : Nat
  transcription_count : Nat
  error_count : Nat
  audio_level : ℚ
  deriving DecidableEq, Repr

/-- Model of `MacWhisperTranscriber.audio_callback` (whisperer.py lines 141-179):
record the peak level, extend the bounded `audio_buffer` with the mono
chunk, and add the chunk length to `frames_processed`.  (The periodic
spawning of `process_audio` is scheduling and not modelled; the callback's
own `except` branch is unreachable for these pure operations, so
`error_count` is untouched.) -/
def audioCallbackW (s : MacWhispererState) (chunk : List ℚ) :
    MacWhispererState :=
  { s with
    audio_level := maxAbs chunk,
    audio_buffer := dequeExtend bufferSize s.audio_buffer chunk,
    frames_processed := s.frames_processed + chunk.length }

/-- C3 counterexample: the `audio_queue` the claim names is unbounded —
after `bufferSize + 1` one-sample pushes (more than the spec's two-second
default capacity C = 32000) it holds every pushed frame: nothing was
dropped, nothing blocked, and no drop counter exists to increase. -/
theorem C3_counterexample :
    teQueueAfter (bufferSize + 1) [1] = List.replicate (bufferSize + 1) [1] ∧
    (teQueueAfter (bufferSize + 1) [1]).length = bufferSize + 1 ∧
    bufferSize < (teQueueAfter (bufferSize + 1) [1]).length := by
  have h : teQueueAfter (bufferSize + 1) [1] =
      List.replicate (bufferSize + 1) [1] := by
    unfold teQueueAfter
    rw [audioCallbackTE_foldl]
    simp
  refine ⟨h, ?_, ?_⟩ <;> rw [h] <;> simp

/-- C3 amended: the bounded buffer of the repository is the whisperer's
`deque(maxlen = 32000)` of samples: a push never blocks (the callback is a
total function), the buffer never exceeds its capacity, overflow drops
exactly the oldest samples (the new buffer is a suffix of old ++ new), and
the only counter touched is `frames_processed`, which grows with every
push whether or not samples were dropped — there is no dedicated
backpressure drop counter. -/
theorem C3_bounded_buffer (s : MacWhispererState) (chunk : List ℚ) :
    (audioCallbackW s chunk).audio_buffer.length =
      min (s.audio_buffer.length + chunk.length) bufferSize ∧
    (audioCallbackW s chunk).audio_buffer.length ≤ bufferSize ∧
    (audioCallbackW s chunk).audio_buffer <:+ s.audio_buffer ++ chunk ∧
    (audioCallbackW s chunk).frames_processed =
      s.frames_processed + chunk.length ∧
    (audioCallbackW s chunk).error_count = s.error_count ∧
    (audioCallbackW s chunk).transcription_count = s.transcription_count := by
  refine ⟨?_, ?_, ?_, ?_, ?_, ?_⟩
  · simp only [audioCallbackW, dequeExtend, List.length_drop,
      List.length_append]
    omega
  · simp only [audioCallbackW, dequeExtend, List.length_drop,
      List.length_append]
    omega
  · have h : (audioCallbackW s chunk).audio_buffer =
        (s.audio_buffer ++ chunk).drop
          (s.audio_buffer.length + chunk.length - bufferSize) := by
      simp only [audioCallbackW, dequeExtend]
    rw [h]
    exact List.drop_suffix _ _
  · cases s
    rfl
  · cases s
    rfl
  · cases s
    rfl

end Metagrafo
